import Mathlib

/-!
Verification of the batch scoring pipeline of the Student Lead Scoring
platform (`src/app.py`, function `process_and_predict`, lines 315-362).

The pipeline consumes a pandas DataFrame uploaded by the user together with
three trained artifacts (a classifier, a feature scaler and a dict of
per-column label encoders).  We shallowly embed:

  * a DataFrame as an ordered list of named columns of cells;
  * the label-encoder, scaler and model artifacts at their interface
    (they live in external pickle files, see `load_models`), following
    the spec where their behaviour is not visible in the source;
  * `process_and_predict` itself, line by line.  pandas assignments
    `df[col] = ...` mutate the caller's frame in place, so the embedding
    returns the final state of the caller's `df` as an explicit first
    component, alongside the (result, error) pair the Python function
    returns.

Numeric cells are modelled as rationals (ℚ) rather than IEEE floats; the
scoring thresholds 0.4 and 0.7 become the exact rationals 2/5 and 7/10.
-/

namespace StudentLead

/-- A cell of a (raw or processed) table: a string, a number, or a missing
value (`na`, pandas NaN — produced e.g. by `pd.cut` for out-of-range data). -/
inductive Cell
  | str (s : String)
  | num (q : ℚ)
  | na
  deriving DecidableEq, Repr

/-- `astype(str)` on a cell: the string coercion pandas applies before the
label-encoder lookup (`df_processed[col].astype(str)`, line 336).  Integers
render without a denominator, mirroring Python `str(5) = "5"`. -/
def Cell.toStr : Cell → String
  | .str s => s
  | .num q => if q.den = 1 then toString q.num else toString q
  | .na => "nan"

/-- A DataFrame: an ordered list of named columns.  Mirrors the pandas frame
`process_and_predict` manipulates (column order is observable in the UI). -/
structure DataFrame where
  cols : List (String × List Cell)
  deriving DecidableEq, Repr

/-- `df.columns` (pandas attribute). -/
def DataFrame.columns (df : DataFrame) : List String :=
  df.cols.map Prod.fst

/-- Number of rows (`len(df)`): the length of the first column. -/
def DataFrame.nRows (df : DataFrame) : Nat :=
  match df.cols with
  | [] => 0
  | c :: _ => c.2.length

/-- Column selection `df[name]`: the first column with the given name. -/
def DataFrame.getCol (df : DataFrame) (name : String) : Option (List Cell) :=
  (df.cols.find? (fun c => c.1 == name)).map Prod.snd

/-- Column assignment `df[name] = vals`: replaces the column in place when the
name is present, otherwise appends a new trailing column (pandas semantics). -/
def DataFrame.setCol (df : DataFrame) (name : String) (vals : List Cell) : DataFrame :=
  if name ∈ df.columns then
    ⟨df.cols.map (fun c => if c.1 == name then (name, vals) else c)⟩
  else
    ⟨df.cols ++ [(name, vals)]⟩

/-- `df.drop(columns=[name])`. -/
def DataFrame.dropCol (df : DataFrame) (name : String) : DataFrame :=
  ⟨df.cols.filter (fun c => !(c.1 == name))⟩

/-- Error-propagating map over a list, mirroring how a single exception inside
a vectorised pandas/sklearn call aborts the whole call (the `try` block of
`process_and_predict` catches it and discards all work for the upload). -/
def mapE (f : α → Except String β) : List α → Except String (List β)
  | [] => .ok []
  | a :: as =>
    match f a with
    | .error e => .error e
    | .ok b =>
      match mapE f as with
      | .error e => .error e
      | .ok bs => .ok (b :: bs)

/-- Modelled from the spec: the trained per-column label encoder artifact
(`label_encoders.pkl`, loaded in `load_models`) is an external object not in
the repository; §3/§4.2 of the spec describe it as an ordered vocabulary of
category strings mapped to dense codes 0..k-1. -/
structure LabelEncoder where
  classes : List String
  deriving DecidableEq, Repr

/-- Modelled from the spec: §4.2 — the encoder "fails with
UnknownCategoryError{column, value} when a value is not in that column's
trained vocabulary".  This is the message the pipeline's `except` clause
returns via `str(e)`. -/
def unknownCategoryMsg (col v : String) : String :=
  "UnknownCategoryError: column " ++ col ++ ", value " ++ v

/-- Vocabulary lookup for one coerced cell value: its dense code, or the
unknown-category failure. -/
def lookupCode (enc : LabelEncoder) (col v : String) : Except String Cell :=
  match enc.classes.findIdx? (fun c => c == v) with
  | some i => .ok (Cell.num i)
  | none => .error (unknownCategoryMsg col v)

/-- `label_encoders[col].transform(series.astype(str))` (line 336): coerce
every cell to its string form, then look each one up in the vocabulary;
any unseen value aborts the call. -/
def LabelEncoder.transformColumn (enc : LabelEncoder) (col : String)
    (vals : List Cell) : Except String (List Cell) :=
  mapE (lookupCode enc col) (vals.map Cell.toStr)

/-- Modelled from the spec: §4.3 — the scaler artifact (`scaler.pkl`) is a
fixed pre-fit transform of rows of a known fitted width; it "fails with
ShapeError if column count does not match the scaler's fitted
dimensionality". -/
structure Scaler where
  nFeatures : Nat
  transformRow : List ℚ → List ℚ

/-- Modelled from the spec: §4.3 ShapeError, phrased like the message the
underlying library raises and `str(e)` forwards. -/
def shapeErrorMsg (got expected : Nat) : String :=
  "ShapeError: X has " ++ toString got ++ " features, but the scaler is expecting "
    ++ toString expected ++ " features as input"

/-- `scaler.transform(df_processed)` (line 339): validates the width of the
matrix against the fitted dimensionality, then applies the fixed per-row
transform.  `width` is the column count of the frame the matrix came from. -/
def Scaler.transform (s : Scaler) (width : Nat) (rows : List (List ℚ)) :
    Except String (List (List ℚ)) :=
  if width = s.nFeatures then .ok (rows.map s.transformRow)
  else .error (shapeErrorMsg width s.nFeatures)

/-- Numeric coercion of one cell, as the scaler's input validation performs it
on the processed frame; non-numeric leftovers (e.g. an unencoded extra string
column) make the whole call fail, and the message is forwarded by `str(e)`. -/
def cellToQ : Cell → Except String ℚ
  | .num q => .ok q
  | .str s => .error ("could not convert string to float: " ++ s)
  | .na => .error "input contains NaN"

/-- The numeric matrix the scaler receives: one row per frame row, one entry
per column, in the frame's column order. -/
def DataFrame.matrixRows (df : DataFrame) : Except String (List (List ℚ)) :=
  mapE (fun i => mapE (fun c => cellToQ (c.2.getD i Cell.na)) df.cols)
    (List.range df.nRows)

/-- Modelled from the spec: §4.4 — the classifier artifact (`best_model.pkl`)
produces per row a probability of the positive class (`predict_proba[:, 1]`)
and a thresholded binary label (`predict`), row-aligned with its input; "any
exception from the underlying model call is fatal to the batch". -/
structure Model where
  probaRow : List ℚ → Except String ℚ
  predictRow : List ℚ → Except String Nat

/-- Banker's rounding (round half to even) to an integer, as `numpy.round`
performs it. -/
def roundHalfEven (q : ℚ) : ℤ :=
  let f := ⌊q⌋
  let r := q - f
  if r < 1/2 then f
  else if 1/2 < r then f + 1
  else if f % 2 = 0 then f else f + 1

/-- `numpy.round(v, 2)`: round to two decimal places. -/
def npRound2dp (v : ℚ) : ℚ :=
  (roundHalfEven (v * 100) : ℚ) / 100

/-- `pd.cut(scores, bins=[0, 0.4, 0.7, 1.0], labels=[...])` (lines 349-353).
`pd.cut` with the default `right=True` and without `include_lowest=True`
buckets into the half-open intervals (0, 0.4], (0.4, 0.7], (0.7, 1.0]; a value
outside all three bins — in particular a score of exactly 0 — gets NaN. -/
def pdCutPriority (s : ℚ) : Cell :=
  if 0 < s ∧ s ≤ 2/5 then .str "🔴 Low"
  else if 2/5 < s ∧ s ≤ 7/10 then .str "🟡 Medium"
  else if 7/10 < s ∧ s ≤ 1 then .str "🟢 High"
  else .na

/-- The encoding loop (lines 334-336):
`for col in expected_cols: if col in df_processed.columns:
df_processed[col] = label_encoders[col].transform(df_processed[col].astype(str))`.
The first unseen value aborts the loop (and the whole `try` block). -/
def encodeAll : List (String × LabelEncoder) → DataFrame → Except String DataFrame
  | [], dfp => .ok dfp
  | (col, enc) :: rest, dfp =>
    match dfp.getCol col with
    | none => encodeAll rest dfp
    | some vals =>
      match enc.transformColumn col vals with
      | .error e => .error e
      | .ok encoded => encodeAll rest (dfp.setCol col encoded)

/-- Lines 329-331: drop the ground-truth `Converted` column from the
processing copy if present. -/
def dropConverted (df : DataFrame) : DataFrame :=
  if "Converted" ∈ df.columns then df.dropCol "Converted" else df

/-- The Python error message formats the missing-column list; quote marks of
the Python list repr are elided. -/
def pyListRepr (l : List String) : String :=
  "[" ++ String.intercalate ", " l ++ "]"

/-- `df.sort_values(by=key, ascending=False).reset_index(drop=True)`
(line 357).  pandas computes an index permutation (`nargsort`): it reverses
the key array, argsorts it with the requested kind, and reverses the indexer.
With the default `kind="quicksort"`, numpy falls back to a stable insertion
sort for at most 16 elements, and for such inputs the composite is exactly a
stable descending sort, which is what is modelled here (for larger inputs the
tie order of numpy's introsort is implementation-defined).  Sorting a cell
column compares the numeric values; the `Lead_Score` key column always holds
numeric cells. -/
def cellQ : Cell → ℚ
  | .num q => q
  | _ => 0

/-- Insert an (original index, key) pair into a descending-sorted list,
before any element with an equal or smaller key (the inserted element comes
from an earlier input position, so ties keep original order). -/
def insertRowDesc (x : Nat × ℚ) : List (Nat × ℚ) → List (Nat × ℚ)
  | [] => [x]
  | y :: ys => if y.2 ≤ x.2 then x :: y :: ys else y :: insertRowDesc x ys

/-- Stable descending sort of (original index, key) pairs. -/
def sortIdxDesc : List (Nat × ℚ) → List (Nat × ℚ)
  | [] => []
  | x :: xs => insertRowDesc x (sortIdxDesc xs)

/-- `df.sort_values(by=key, ascending=False).reset_index(drop=True)`:
reorder every column by the descending permutation of the key column. -/
def DataFrame.sortValuesDesc (df : DataFrame) (key : String) : DataFrame :=
  match df.getCol key with
  | none => df
  | some kc =>
    let keyed := (List.range df.nRows).map (fun i => (i, cellQ (kc.getD i Cell.na)))
    let perm := (sortIdxDesc keyed).map Prod.fst
    ⟨df.cols.map (fun c => (c.1, perm.map (fun i => c.2.getD i Cell.na)))⟩

/-- Lines 347-354: the four in-place column assignments on the caller's
frame — `df['Lead_Score'] = scores`, `df['Lead_Score_%'] = (scores *
100).round(2)`, `df['Priority'] = pd.cut(...)`, `df['Prediction'] = [...]`. -/
def attachDerived (df : DataFrame) (scores : List ℚ) (predictions : List Nat) :
    DataFrame :=
  let df1 := df.setCol "Lead_Score" (scores.map Cell.num)
  let df2 := df1.setCol "Lead_Score_%"
    (scores.map (fun q => Cell.num (npRound2dp (q * 100))))
  let df3 := df2.setCol "Priority" (scores.map pdCutPriority)
  df3.setCol "Prediction" (predictions.map (fun p =>
    Cell.str (if p = 1 then "✓ Likely" else "✗ Unlikely")))

/-- `process_and_predict(df, best_model, scaler, label_encoders)`
(src/app.py lines 315-362), embedded line by line.

The Python function returns a pair `(df_sorted | None, error | None)` and, on
success, mutates the caller's `df` in place (lines 347-354 assign four new
columns to the original frame, not to the copy).  The embedding therefore
returns a triple: the caller-visible state of `df` after the call, the result
frame, and the error message. -/
def process_and_predict (df : DataFrame) (best_model : Model) (scaler : Scaler)
    (label_encoders : List (String × LabelEncoder)) :
    DataFrame × Option DataFrame × Option String :=
  let expected_cols := label_encoders.map Prod.fst
  let missing_cols := expected_cols.filter (fun c => c ∉ df.columns)
  if missing_cols = [] then
    let df_processed := dropConverted df
    match encodeAll label_encoders df_processed with
    | .error e => (df, none, some e)
    | .ok dfe =>
      match dfe.matrixRows with
      | .error e => (df, none, some e)
      | .ok rows =>
        match scaler.transform dfe.cols.length rows with
        | .error e => (df, none, some e)
        | .ok features_scaled =>
          match mapE best_model.probaRow features_scaled with
          | .error e => (df, none, some e)
          | .ok scores =>
            match mapE best_model.predictRow features_scaled with
            | .error e => (df, none, some e)
            | .ok predictions =>
              let df4 := attachDerived df scores predictions
              (df4, some (df4.sortValuesDesc "Lead_Score"), none)
  else (df, none, some ("Missing required columns: " ++ pyListRepr missing_cols))

/-- A model artifact whose failure messages are informative: any exception it
raises carries a non-empty message (`str(e)` of an InferenceError per §4.4).
Nothing else is assumed about the opaque classifier. -/
def Model.WellFormedErrors (m : Model) : Prop :=
  (∀ r msg, m.probaRow r = .error msg → msg ≠ "") ∧
  (∀ r msg, m.predictRow r = .error msg → msg ≠ "")

/-! ### Concrete test fixtures (the spec §8 end-to-end example and variants) -/

/-- Fixture: the §8 encoder set — `Source:{Google→0, Direct→1}`,
`Contacted:{No→0, Yes→1}`. -/
def egEncoders : List (String × LabelEncoder) :=
  [("Source", ⟨["Google", "Direct"]⟩), ("Contacted", ⟨["No", "Yes"]⟩)]

/-- Fixture: an identity scaler fitted on two features. -/
def egScaler : Scaler := ⟨2, fun r => r⟩

/-- Fixture: an identity scaler fitted on one feature. -/
def egScaler1 : Scaler := ⟨1, fun r => r⟩

/-- Fixture: the §8 model — probability 0.85 and class 1 on the encoded row
`[0, 1]` (Google, Yes), probability 0.2 and class 0 otherwise. -/
def egModel : Model :=
  ⟨fun r => if r = [0, 1] then .ok (17/20) else .ok (1/5),
   fun r => if r = [0, 1] then .ok 1 else .ok 0⟩

/-- Fixture: the §8 upload `[(Google, Yes), (Direct, No)]`. -/
def egUpload : DataFrame :=
  ⟨[("Source", [.str "Google", .str "Direct"]), ("Contacted", [.str "Yes", .str "No"])]⟩

/-- Fixture: the processing copy of the §8 upload after encoding. -/
def egEncoded : DataFrame :=
  ⟨[("Source", [.num 0, .num 1]), ("Contacted", [.num 1, .num 0])]⟩

/-- Fixture: `egUploadExtra` after encoding its required column. -/
def egEncodedExtra : DataFrame :=
  ⟨[("A", [.num 0]), ("C", [.num 3])]⟩

/-- Fixture: an upload with an out-of-vocabulary `Source` value. -/
def egUploadUnknown : DataFrame :=
  ⟨[("Source", [.str "Bing"]), ("Contacted", [.str "Yes"])]⟩

/-- Fixture: an upload missing the required `Contacted` column. -/
def egUploadMissing : DataFrame :=
  ⟨[("Source", [.str "Google"])]⟩

/-- Fixture: a single-column encoder set. -/
def egEncodersA : List (String × LabelEncoder) :=
  [("A", ⟨["x"]⟩)]

/-- Fixture: an upload with the required column `A` (valid value) plus an
extra column `C`. -/
def egUploadExtra : DataFrame :=
  ⟨[("A", [.str "x"]), ("C", [.num 3])]⟩

/-- Fixture: the §8 upload with an extra `Converted` ground-truth column. -/
def egUploadConverted : DataFrame :=
  ⟨[("Source", [.str "Google", .str "Direct"]), ("Contacted", [.str "Yes", .str "No"]),
    ("Converted", [.str "1", .str "0"])]⟩

/-! ### Basic lemmas about the DataFrame operations -/

theorem getCol_eq_none_iff (df : DataFrame) (name : String) :
    df.getCol name = none ↔ name ∉ df.columns := by
  unfold DataFrame.getCol DataFrame.columns
  rw [Option.map_eq_none', List.find?_eq_none]
  constructor
  · intro h hm
    rcases List.mem_map.1 hm with ⟨c, hc, hfst⟩
    exact absurd (by simp [hfst]) (h c hc)
  · intro h c hc hbeq
    exact h (List.mem_map.2 ⟨c, hc, by simpa using hbeq⟩)

theorem find?_name_map_set (name : String) (vs : List Cell)
    (l : List (String × List Cell)) (h : name ∈ l.map Prod.fst) :
    (l.map (fun c => if c.1 == name then (name, vs) else c)).find?
      (fun c => c.1 == name) = some (name, vs) := by
  induction l with
  | nil => simp at h
  | cons a as ih =>
    by_cases ha : a.1 = name
    · simp [ha]
    · have h' : name ∈ as.map Prod.fst := by
        rcases List.mem_map.1 h with ⟨c, hc, hfst⟩
        rcases List.mem_cons.1 hc with rfl | hc'
        · exact absurd hfst ha
        · exact List.mem_map.2 ⟨c, hc', hfst⟩
      simpa [ha] using ih h'

theorem find?_name_append (name : String) (vs : List Cell)
    (l : List (String × List Cell)) (h : name ∉ l.map Prod.fst) :
    (l ++ [(name, vs)]).find? (fun c => c.1 == name) = some (name, vs) := by
  induction l with
  | nil => simp
  | cons a as ih =>
    have ha : ¬ a.1 = name := fun hc => h (List.mem_map.2 ⟨a, List.mem_cons_self a as, hc⟩)
    have h' : name ∉ as.map Prod.fst := fun hc => h (by simp [hc])
    simpa [ha] using ih h'

theorem getCol_setCol_self (df : DataFrame) (name : String) (vs : List Cell) :
    (df.setCol name vs).getCol name = some vs := by
  unfold DataFrame.setCol DataFrame.getCol DataFrame.columns
  split
  · rename_i hmem
    rw [find?_name_map_set name vs df.cols hmem]
    rfl
  · rename_i hmem
    rw [find?_name_append name vs df.cols hmem]
    rfl

theorem find?_name_map_set_ne (n m : String) (vs : List Cell)
    (l : List (String × List Cell)) (h : m ≠ n) :
    (l.map (fun c => if c.1 == n then (n, vs) else c)).find? (fun c => c.1 == m)
      = l.find? (fun c => c.1 == m) := by
  induction l with
  | nil => simp
  | cons a as ih =>
    by_cases ha : a.1 = n
    · have hm : a.1 ≠ m := fun hc => h (hc.symm.trans ha)
      rw [List.map_cons, List.find?_cons_of_neg, List.find?_cons_of_neg]
      · exact ih
      · simp [hm]
      · simp [ha, Ne.symm h]
    · by_cases hm : a.1 = m
      · rw [List.map_cons, List.find?_cons_of_pos, List.find?_cons_of_pos]
        · simp [ha]
        · simp [hm]
        · simp [ha, hm, h]
      · rw [List.map_cons, List.find?_cons_of_neg, List.find?_cons_of_neg]
        · exact ih
        · simp [hm]
        · simp [ha, hm]

theorem getCol_setCol_ne (df : DataFrame) (n m : String) (vs : List Cell)
    (h : m ≠ n) : (df.setCol n vs).getCol m = df.getCol m := by
  unfold DataFrame.setCol DataFrame.getCol
  split
  · rw [find?_name_map_set_ne n m vs df.cols h]
  · rw [List.find?_append]
    have : List.find? (fun c => c.1 == m) [(n, vs)] = none := by
      simp [Ne.symm h]
    simp only [this]
    cases List.find? (fun c => c.1 == m) df.cols <;> simp

theorem columns_setCol_of_mem (df : DataFrame) (n : String) (vs : List Cell)
    (h : n ∈ df.columns) : (df.setCol n vs).columns = df.columns := by
  unfold DataFrame.setCol
  rw [if_pos h]
  unfold DataFrame.columns
  rw [List.map_map]
  apply List.map_congr_left
  intro c _
  by_cases hc : c.1 = n
  · simp [hc]
  · simp [hc]

theorem columns_setCol_of_not_mem (df : DataFrame) (n : String) (vs : List Cell)
    (h : n ∉ df.columns) : (df.setCol n vs).columns = df.columns ++ [n] := by
  unfold DataFrame.setCol
  rw [if_neg h]
  unfold DataFrame.columns
  simp

theorem mem_columns_setCol (df : DataFrame) (c n : String) (vs : List Cell)
    (h : c ∈ df.columns) : c ∈ (df.setCol n vs).columns := by
  by_cases hn : n ∈ df.columns
  · rw [columns_setCol_of_mem df n vs hn]; exact h
  · rw [columns_setCol_of_not_mem df n vs hn]; exact List.mem_append_left _ h

theorem cols_length_setCol_of_mem (df : DataFrame) (n : String) (vs : List Cell)
    (h : n ∈ df.columns) : (df.setCol n vs).cols.length = df.cols.length := by
  unfold DataFrame.setCol
  rw [if_pos h]
  simp

theorem find?_name_filter_drop (n m : String) (l : List (String × List Cell))
    (h : m ≠ n) :
    (l.filter (fun c => !(c.1 == n))).find? (fun c => c.1 == m)
      = l.find? (fun c => c.1 == m) := by
  induction l with
  | nil => simp
  | cons a as ih =>
    by_cases ha : a.1 = n
    · have hm : a.1 ≠ m := fun hc => h (hc.symm.trans ha)
      rw [List.filter_cons_of_neg, List.find?_cons_of_neg]
      · exact ih
      · simp [hm]
      · simp [ha]
    · rw [List.filter_cons_of_pos]
      · by_cases hm : a.1 = m
        · rw [List.find?_cons_of_pos, List.find?_cons_of_pos] <;> simp [hm]
        · rw [List.find?_cons_of_neg, List.find?_cons_of_neg]
          · exact ih
          · simp [hm]
          · simp [hm]
      · simp [ha]

theorem getCol_dropCol_ne (df : DataFrame) (n m : String) (h : m ≠ n) :
    (df.dropCol n).getCol m = df.getCol m := by
  unfold DataFrame.dropCol DataFrame.getCol
  simp only [find?_name_filter_drop n m df.cols h]

theorem dropCol_of_not_mem (df : DataFrame) (n : String) (h : n ∉ df.columns) :
    df.dropCol n = df := by
  unfold DataFrame.dropCol
  congr 1
  apply List.filter_eq_self.2
  intro c hc
  simp only [Bool.not_eq_true']
  have : ¬ c.1 = n := fun hfst => h (List.mem_map.2 ⟨c, hc, hfst⟩)
  simp [this]

theorem not_mem_columns_dropCol (df : DataFrame) (n : String) :
    n ∉ (df.dropCol n).columns := by
  unfold DataFrame.dropCol DataFrame.columns
  intro h
  rcases List.mem_map.1 h with ⟨c, hc, hfst⟩
  have := List.of_mem_filter hc
  simp [hfst] at this

theorem columns_sortValuesDesc (df : DataFrame) (k : String) :
    (df.sortValuesDesc k).columns = df.columns := by
  unfold DataFrame.sortValuesDesc
  split
  · rfl
  · unfold DataFrame.columns
    simp

theorem mem_columns_of_getCol {df : DataFrame} {c : String} {vals : List Cell}
    (h : df.getCol c = some vals) : c ∈ df.columns := by
  by_contra hc
  rw [← getCol_eq_none_iff df c] at hc
  rw [h] at hc
  cases hc

theorem columns_setCol_indep (df : DataFrame) (n : String) (vs vs' : List Cell) :
    (df.setCol n vs).columns = (df.setCol n vs').columns := by
  by_cases h : n ∈ df.columns
  · rw [columns_setCol_of_mem df n vs h, columns_setCol_of_mem df n vs' h]
  · rw [columns_setCol_of_not_mem df n vs h, columns_setCol_of_not_mem df n vs' h]

theorem filter_drop_map_set (n : String) (vs : List Cell)
    (l : List (String × List Cell)) :
    (l.map (fun c => if c.1 == n then (n, vs) else c)).filter (fun c => !(c.1 == n))
      = l.filter (fun c => !(c.1 == n)) := by
  induction l with
  | nil => simp
  | cons a as ih =>
    by_cases ha : a.1 = n
    · simpa [ha] using ih
    · simpa [ha] using ih

theorem dropCol_setCol_self (df : DataFrame) (n : String) (vs : List Cell) :
    (df.setCol n vs).dropCol n = df.dropCol n := by
  unfold DataFrame.setCol
  split
  · unfold DataFrame.dropCol
    exact congrArg DataFrame.mk (filter_drop_map_set n vs df.cols)
  · unfold DataFrame.dropCol
    simp [List.filter_append]

theorem mem_columns_setCol_self (df : DataFrame) (n : String) (vs : List Cell) :
    n ∈ (df.setCol n vs).columns :=
  mem_columns_of_getCol (getCol_setCol_self df n vs)

theorem dropConverted_setCol (df : DataFrame) (vs : List Cell) :
    dropConverted (df.setCol "Converted" vs) = dropConverted df := by
  unfold dropConverted
  rw [if_pos (mem_columns_setCol_self df "Converted" vs), dropCol_setCol_self]
  split
  · rfl
  · rename_i h
    rw [dropCol_of_not_mem df _ h]

theorem columns_setCol_Converted (df : DataFrame) (vs vs' : List Cell) :
    (df.setCol "Converted" vs).columns = (df.setCol "Converted" vs').columns :=
  columns_setCol_indep df "Converted" vs vs'

/-! ### Lemmas about the error-propagating map and the encoding loop -/

theorem mapE_error_mem {f : α → Except String β} {l : List α} {e : String}
    (h : mapE f l = .error e) : ∃ a ∈ l, f a = .error e := by
  induction l with
  | nil => simp [mapE] at h
  | cons a as ih =>
    unfold mapE at h
    cases hfa : f a with
    | error e' =>
      rw [hfa] at h
      cases h
      exact ⟨a, List.mem_cons_self a as, hfa⟩
    | ok b =>
      rw [hfa] at h
      cases hrest : mapE f as with
      | error e' =>
        rw [hrest] at h
        cases h
        obtain ⟨x, hx, hfx⟩ := ih hrest
        exact ⟨x, List.mem_cons_of_mem a hx, hfx⟩
      | ok bs =>
        rw [hrest] at h
        cases h

theorem mapE_ok_forall {f : α → Except String β} {l : List α} {bs : List β}
    (h : mapE f l = .ok bs) : ∀ a ∈ l, ∃ b, f a = .ok b := by
  induction l generalizing bs with
  | nil => intro a ha; simp at ha
  | cons a as ih =>
    intro x hx
    unfold mapE at h
    cases hfa : f a with
    | error e' => rw [hfa] at h; cases h
    | ok b =>
      rw [hfa] at h
      cases hrest : mapE f as with
      | error e' => rw [hrest] at h; cases h
      | ok bs' =>
        rcases List.mem_cons.1 hx with rfl | hx'
        · exact ⟨b, hfa⟩
        · exact ih hrest x hx'

theorem findIdx?_eq_none_of_not_mem {v : String} {cls : List String}
    (h : v ∉ cls) : cls.findIdx? (fun c => c == v) = none := by
  rw [List.findIdx?_eq_none_iff]
  intro x hx
  simp only [beq_eq_false_iff_ne, ne_eq]
  intro hc
  exact h (hc ▸ hx)

theorem not_mem_of_findIdx?_eq_none {v : String} {cls : List String}
    (h : cls.findIdx? (fun c => c == v) = none) : v ∉ cls := by
  rw [List.findIdx?_eq_none_iff] at h
  intro hm
  have := h v hm
  simp at this

theorem lookupCode_error {enc : LabelEncoder} {col v : String} {e : String}
    (h : lookupCode enc col v = .error e) :
    v ∉ enc.classes ∧ e = unknownCategoryMsg col v := by
  unfold lookupCode at h
  cases hidx : enc.classes.findIdx? (fun c => c == v) with
  | some i => rw [hidx] at h; cases h
  | none =>
    rw [hidx] at h
    cases h
    exact ⟨not_mem_of_findIdx?_eq_none hidx, rfl⟩

theorem lookupCode_ok_mem {enc : LabelEncoder} {col v : String} {b : Cell}
    (h : lookupCode enc col v = .ok b) : v ∈ enc.classes := by
  by_contra hv
  unfold lookupCode at h
  rw [findIdx?_eq_none_of_not_mem hv] at h
  cases h

theorem transformColumn_error_mem {enc : LabelEncoder} {col : String}
    {vals : List Cell} {e : String} (h : enc.transformColumn col vals = .error e) :
    ∃ v ∈ vals.map Cell.toStr, v ∉ enc.classes ∧ e = unknownCategoryMsg col v := by
  obtain ⟨v, hv, hfv⟩ := mapE_error_mem h
  obtain ⟨hcl, he⟩ := lookupCode_error hfv
  exact ⟨v, hv, hcl, he⟩

theorem transformColumn_ok_forall {enc : LabelEncoder} {col : String}
    {vals : List Cell} {encoded : List Cell}
    (h : enc.transformColumn col vals = .ok encoded) :
    ∀ v ∈ vals.map Cell.toStr, v ∈ enc.classes := by
  intro v hv
  obtain ⟨b, hb⟩ := mapE_ok_forall h v hv
  exact lookupCode_ok_mem hb

theorem encodeAll_error_mem {encs : List (String × LabelEncoder)}
    {dfp : DataFrame} {e : String} (hnd : (encs.map Prod.fst).Nodup)
    (h : encodeAll encs dfp = .error e) :
    ∃ c enc vals v, (c, enc) ∈ encs ∧ dfp.getCol c = some vals ∧
      v ∈ vals.map Cell.toStr ∧ v ∉ enc.classes ∧ e = unknownCategoryMsg c v := by
  induction encs generalizing dfp with
  | nil => simp [encodeAll] at h
  | cons ce rest ih =>
    obtain ⟨c1, enc1⟩ := ce
    rw [List.map_cons, List.nodup_cons] at hnd
    unfold encodeAll at h
    cases hg : dfp.getCol c1 with
    | none =>
      simp only [hg] at h
      obtain ⟨c, enc, vals, v, hm, hgc, hv, hcl, he⟩ := ih hnd.2 h
      exact ⟨c, enc, vals, v, List.mem_cons_of_mem _ hm, hgc, hv, hcl, he⟩
    | some vals =>
      simp only [hg] at h
      cases ht : enc1.transformColumn c1 vals with
      | error e' =>
        simp only [ht] at h
        cases h
        obtain ⟨v, hv, hcl, he⟩ := transformColumn_error_mem ht
        exact ⟨c1, enc1, vals, v, List.mem_cons_self _ _, hg, hv, hcl, he⟩
      | ok encoded =>
        simp only [ht] at h
        obtain ⟨c, enc, vals', v, hm, hgc, hv, hcl, he⟩ := ih hnd.2 h
        have hc1 : c ≠ c1 := by
          intro hc
          exact hnd.1 (hc ▸ List.mem_map.2 ⟨(c, enc), hm, rfl⟩)
        rw [getCol_setCol_ne dfp c1 c encoded hc1] at hgc
        exact ⟨c, enc, vals', v, List.mem_cons_of_mem _ hm, hgc, hv, hcl, he⟩

theorem encodeAll_ne_ok {encs : List (String × LabelEncoder)} {dfp : DataFrame}
    {c : String} {enc : LabelEncoder} {vals : List Cell} {v : String}
    (hnd : (encs.map Prod.fst).Nodup) (hm : (c, enc) ∈ encs)
    (hg : dfp.getCol c = some vals) (hv : v ∈ vals.map Cell.toStr)
    (hcl : v ∉ enc.classes) : ∀ res, encodeAll encs dfp ≠ .ok res := by
  induction encs generalizing dfp with
  | nil => simp at hm
  | cons ce rest ih =>
    obtain ⟨c1, enc1⟩ := ce
    rw [List.map_cons, List.nodup_cons] at hnd
    intro res h
    unfold encodeAll at h
    cases hgc1 : dfp.getCol c1 with
    | none =>
      simp only [hgc1] at h
      rcases List.mem_cons.1 hm with hhead | htail
      · cases hhead
        rw [hg] at hgc1
        cases hgc1
      · exact ih hnd.2 htail hg res h
    | some vals1 =>
      simp only [hgc1] at h
      cases ht : enc1.transformColumn c1 vals1 with
      | error e' => simp only [ht] at h; cases h
      | ok encoded =>
        simp only [ht] at h
        rcases List.mem_cons.1 hm with hhead | htail
        · cases hhead
          rw [hg] at hgc1
          cases hgc1
          exact hcl (transformColumn_ok_forall ht v hv)
        · have hc1 : c ≠ c1 := by
            intro hc
            exact hnd.1 (hc ▸ List.mem_map.2 ⟨(c, enc), htail, rfl⟩)
          have hg' : (dfp.setCol c1 encoded).getCol c = some vals := by
            rw [getCol_setCol_ne dfp c1 c encoded hc1]
            exact hg
          exact ih hnd.2 htail hg' res h

theorem encodeAll_ok_columns {encs : List (String × LabelEncoder)}
    {dfp dfe : DataFrame} (h : encodeAll encs dfp = .ok dfe) :
    dfe.columns = dfp.columns ∧ dfe.cols.length = dfp.cols.length := by
  induction encs generalizing dfp with
  | nil =>
    unfold encodeAll at h
    cases h
    exact ⟨rfl, rfl⟩
  | cons ce rest ih =>
    obtain ⟨c1, enc1⟩ := ce
    unfold encodeAll at h
    cases hg : dfp.getCol c1 with
    | none =>
      simp only [hg] at h
      exact ih h
    | some vals =>
      simp only [hg] at h
      cases ht : enc1.transformColumn c1 vals with
      | error e' => simp only [ht] at h; cases h
      | ok encoded =>
        simp only [ht] at h
        obtain ⟨h1, h2⟩ := ih h
        have hmem : c1 ∈ dfp.columns := mem_columns_of_getCol hg
        rw [h1, h2]
        exact ⟨columns_setCol_of_mem dfp c1 encoded hmem,
          cols_length_setCol_of_mem dfp c1 encoded hmem⟩

theorem getCol_dropConverted_ne (df : DataFrame) (c : String)
    (h : c ≠ "Converted") : (dropConverted df).getCol c = df.getCol c := by
  unfold dropConverted
  split
  · exact getCol_dropCol_ne df "Converted" c h
  · rfl

theorem not_mem_columns_dropConverted (df : DataFrame) :
    "Converted" ∉ (dropConverted df).columns := by
  unfold dropConverted
  split
  · exact not_mem_columns_dropCol df "Converted"
  · rename_i h
    exact h

/-! ### Error messages are never empty -/

theorem data_ne_nil_of_ne_empty {s : String} (h : s ≠ "") : s.data ≠ [] := by
  intro hc
  apply h
  cases s
  simp_all

theorem append_ne_empty {s : String} (t : String) (h : s ≠ "") : s ++ t ≠ "" := by
  intro hc
  have hd : (s ++ t).data = [] := by rw [hc]
  rw [String.data_append] at hd
  exact data_ne_nil_of_ne_empty h (List.append_eq_nil.mp hd).1

theorem unknownCategoryMsg_ne_empty (c v : String) : unknownCategoryMsg c v ≠ "" := by
  unfold unknownCategoryMsg
  apply append_ne_empty
  apply append_ne_empty
  apply append_ne_empty
  decide

theorem shapeErrorMsg_ne_empty (g e : Nat) : shapeErrorMsg g e ≠ "" := by
  unfold shapeErrorMsg
  apply append_ne_empty
  apply append_ne_empty
  apply append_ne_empty
  apply append_ne_empty
  decide

theorem cellToQ_error_ne_empty {c : Cell} {e : String} (h : cellToQ c = .error e) :
    e ≠ "" := by
  cases c with
  | num q => cases h
  | str s =>
    cases h
    apply append_ne_empty
    decide
  | na =>
    cases h
    decide

theorem encodeAll_error_form {encs : List (String × LabelEncoder)}
    {dfp : DataFrame} {e : String} (h : encodeAll encs dfp = .error e) :
    ∃ c v, e = unknownCategoryMsg c v := by
  induction encs generalizing dfp with
  | nil => simp [encodeAll] at h
  | cons ce rest ih =>
    obtain ⟨c1, enc1⟩ := ce
    unfold encodeAll at h
    cases hg : dfp.getCol c1 with
    | none =>
      simp only [hg] at h
      exact ih h
    | some vals =>
      simp only [hg] at h
      cases ht : enc1.transformColumn c1 vals with
      | error e' =>
        simp only [ht] at h
        cases h
        obtain ⟨v, _, _, he⟩ := transformColumn_error_mem ht
        exact ⟨c1, v, he⟩
      | ok encoded =>
        simp only [ht] at h
        exact ih h

theorem matrixRows_error_ne_empty {df : DataFrame} {e : String}
    (h : df.matrixRows = .error e) : e ≠ "" := by
  unfold DataFrame.matrixRows at h
  obtain ⟨i, _, hi⟩ := mapE_error_mem h
  obtain ⟨c, _, hc⟩ := mapE_error_mem hi
  exact cellToQ_error_ne_empty hc

/-! ### Path-shape lemmas: the pipeline's result on each control path -/

theorem process_encode_error_eq (df : DataFrame) (m : Model) (s : Scaler)
    (encs : List (String × LabelEncoder)) (e : String)
    (h1 : (encs.map Prod.fst).filter (fun c => c ∉ df.columns) = [])
    (h2 : encodeAll encs (dropConverted df) = .error e) :
    process_and_predict df m s encs = (df, none, some e) := by
  simp only [process_and_predict, h1, if_true]
  simp only [h2]

theorem process_shape_error_eq (df : DataFrame) (m : Model) (s : Scaler)
    (encs : List (String × LabelEncoder)) (dfe : DataFrame)
    (rows : List (List ℚ))
    (h1 : (encs.map Prod.fst).filter (fun c => c ∉ df.columns) = [])
    (h2 : encodeAll encs (dropConverted df) = .ok dfe)
    (h3 : dfe.matrixRows = .ok rows)
    (h4 : dfe.cols.length ≠ s.nFeatures) :
    process_and_predict df m s encs
      = (df, none, some (shapeErrorMsg dfe.cols.length s.nFeatures)) := by
  simp only [process_and_predict, h1, if_true]
  simp only [h2, h3]
  unfold Scaler.transform
  rw [if_neg h4]

theorem process_success_eq (df : DataFrame) (m : Model) (s : Scaler)
    (encs : List (String × LabelEncoder)) (dfe : DataFrame)
    (rows feats : List (List ℚ)) (scores : List ℚ) (preds : List Nat)
    (h1 : (encs.map Prod.fst).filter (fun c => c ∉ df.columns) = [])
    (h2 : encodeAll encs (dropConverted df) = .ok dfe)
    (h3 : dfe.matrixRows = .ok rows)
    (h4 : s.transform dfe.cols.length rows = .ok feats)
    (h5 : mapE m.probaRow feats = .ok scores)
    (h6 : mapE m.predictRow feats = .ok preds) :
    process_and_predict df m s encs =
      (attachDerived df scores preds,
       some ((attachDerived df scores preds).sortValuesDesc "Lead_Score"),
       none) := by
  simp only [process_and_predict, h1, if_true]
  simp only [h2, h3, h4, h5, h6]

theorem getCol_attachDerived_score (df : DataFrame) (scores : List ℚ)
    (preds : List Nat) :
    (attachDerived df scores preds).getCol "Lead_Score"
      = some (scores.map Cell.num) := by
  unfold attachDerived
  rw [getCol_setCol_ne _ _ _ _ (by decide), getCol_setCol_ne _ _ _ _ (by decide),
    getCol_setCol_ne _ _ _ _ (by decide), getCol_setCol_self]

theorem getCol_attachDerived_pct (df : DataFrame) (scores : List ℚ)
    (preds : List Nat) :
    (attachDerived df scores preds).getCol "Lead_Score_%"
      = some (scores.map (fun q => Cell.num (npRound2dp (q * 100)))) := by
  unfold attachDerived
  rw [getCol_setCol_ne _ _ _ _ (by decide), getCol_setCol_ne _ _ _ _ (by decide),
    getCol_setCol_self]

theorem getCol_attachDerived_priority (df : DataFrame) (scores : List ℚ)
    (preds : List Nat) :
    (attachDerived df scores preds).getCol "Priority"
      = some (scores.map pdCutPriority) := by
  unfold attachDerived
  rw [getCol_setCol_ne _ _ _ _ (by decide), getCol_setCol_self]

theorem getCol_attachDerived_pred (df : DataFrame) (scores : List ℚ)
    (preds : List Nat) :
    (attachDerived df scores preds).getCol "Prediction"
      = some (preds.map (fun p =>
          Cell.str (if p = 1 then "✓ Likely" else "✗ Unlikely"))) := by
  unfold attachDerived
  rw [getCol_setCol_self]

theorem getCol_attachDerived_other (df : DataFrame) (scores : List ℚ)
    (preds : List Nat) (c : String) (h1 : c ≠ "Lead_Score")
    (h2 : c ≠ "Lead_Score_%") (h3 : c ≠ "Priority") (h4 : c ≠ "Prediction") :
    (attachDerived df scores preds).getCol c = df.getCol c := by
  unfold attachDerived
  rw [getCol_setCol_ne _ _ _ _ h4, getCol_setCol_ne _ _ _ _ h3,
    getCol_setCol_ne _ _ _ _ h2, getCol_setCol_ne _ _ _ _ h1]

theorem mem_columns_attachDerived (df : DataFrame) (scores : List ℚ)
    (preds : List Nat) (c : String) (h : c ∈ df.columns) :
    c ∈ (attachDerived df scores preds).columns := by
  unfold attachDerived
  exact mem_columns_setCol _ _ _ _ (mem_columns_setCol _ _ _ _
    (mem_columns_setCol _ _ _ _ (mem_columns_setCol _ _ _ _ h)))

/-- Inverting a successful run: it must have come through the success path,
the mutated caller frame is the input with the four derived columns attached,
and the result is its sort by descending score. -/
theorem process_success_inv (df : DataFrame) (m : Model) (s : Scaler)
    (encs : List (String × LabelEncoder)) (dfA out : DataFrame)
    (h : process_and_predict df m s encs = (dfA, some out, none)) :
    ∃ feats scores preds,
      mapE m.probaRow feats = .ok scores ∧
      mapE m.predictRow feats = .ok preds ∧
      dfA = attachDerived df scores preds ∧
      out = (attachDerived df scores preds).sortValuesDesc "Lead_Score" := by
  simp only [process_and_predict] at h
  split at h
  · split at h
    · injection h with ha h2
      injection h2 with hb hc
      exact Option.noConfusion hb
    · rename_i dfe henc
      split at h
      · injection h with ha h2
        injection h2 with hb hc
        exact Option.noConfusion hb
      · rename_i rows hmr
        split at h
        · injection h with ha h2
          injection h2 with hb hc
          exact Option.noConfusion hb
        · rename_i feats hsc
          split at h
          · injection h with ha h2
            injection h2 with hb hc
            exact Option.noConfusion hb
          · rename_i scores hpr
            split at h
            · injection h with ha h2
              injection h2 with hb hc
              exact Option.noConfusion hb
            · rename_i preds hpd
              injection h with ha h2
              injection h2 with hb hc
              refine ⟨feats, scores, preds, hpr, hpd, ha.symm, ?_⟩
              injection hb with hout
              exact hout.symm
  · injection h with ha h2
    injection h2 with hb hc
    exact Option.noConfusion hb

/-- The result and error components of a run depend on the caller's frame
only through its column set and its `Converted`-free part. -/
theorem process_snd_congr (df₁ df₂ : DataFrame) (m : Model) (s : Scaler)
    (encs : List (String × LabelEncoder))
    (h1 : df₁.columns = df₂.columns)
    (h2 : dropConverted df₁ = dropConverted df₂) :
    (process_and_predict df₁ m s encs).2.2
        = (process_and_predict df₂ m s encs).2.2 ∧
      ((process_and_predict df₁ m s encs).2.1 = none ↔
        (process_and_predict df₂ m s encs).2.1 = none) := by
  simp only [process_and_predict, h1, h2]
  split
  · split
    · exact ⟨rfl, by simp⟩
    · split
      · exact ⟨rfl, by simp⟩
      · split
        · exact ⟨rfl, by simp⟩
        · split
          · exact ⟨rfl, by simp⟩
          · split
            · exact ⟨rfl, by simp⟩
            · exact ⟨rfl, by simp⟩
  · exact ⟨rfl, by simp⟩

/-! ### Stage evaluations on the concrete fixtures -/

theorem egMissingNone :
    (egEncoders.map Prod.fst).filter (fun c => c ∉ egUpload.columns) = [] := by
  decide

theorem egDrop_eq : dropConverted egUpload = egUpload := by decide

theorem egDropConv_eq : dropConverted egUploadConverted = egUpload := by decide

theorem egConvMissingNone :
    (egEncoders.map Prod.fst).filter
      (fun c => c ∉ egUploadConverted.columns) = [] := by
  decide

theorem egEncode_eq : encodeAll egEncoders egUpload = .ok egEncoded := by
  simp [encodeAll, egEncoders, egUpload, egEncoded, DataFrame.getCol,
    DataFrame.setCol, DataFrame.columns, LabelEncoder.transformColumn, mapE,
    lookupCode, Cell.toStr, List.find?, List.findIdx?]

theorem egRange2 : List.range 2 = [0, 1] := by decide

theorem egMatrix_eq : egEncoded.matrixRows = .ok [[0, 1], [1, 0]] := by
  simp [DataFrame.matrixRows, DataFrame.nRows, egEncoded, egRange2, mapE,
    cellToQ]

theorem egScale_eq :
    egScaler.transform egEncoded.cols.length [[0, 1], [1, 0]]
      = .ok [[0, 1], [1, 0]] := by
  simp [Scaler.transform, egScaler, egEncoded]

theorem egProba_eq :
    mapE egModel.probaRow [[0, 1], [1, 0]] = .ok [17/20, 1/5] := by
  simp [mapE, egModel]

theorem egPredict_eq :
    mapE egModel.predictRow [[0, 1], [1, 0]] = .ok [1, 0] := by
  simp [mapE, egModel]

/-- The §8 success run, assembled from the stage evaluations. -/
theorem egRun_eq :
    process_and_predict egUpload egModel egScaler egEncoders =
      (attachDerived egUpload [17/20, 1/5] [1, 0],
       some ((attachDerived egUpload [17/20, 1/5] [1, 0]).sortValuesDesc
         "Lead_Score"),
       none) :=
  process_success_eq egUpload egModel egScaler egEncoders egEncoded
    [[0, 1], [1, 0]] [[0, 1], [1, 0]] [17/20, 1/5] [1, 0]
    egMissingNone (egDrop_eq ▸ egEncode_eq) egMatrix_eq egScale_eq
    egProba_eq egPredict_eq

/-- The same success run on the upload that carries a `Converted` column:
the processing copy coincides with the plain §8 upload, so every stage
evaluation is reused. -/
theorem egConvRun_eq :
    process_and_predict egUploadConverted egModel egScaler egEncoders =
      (attachDerived egUploadConverted [17/20, 1/5] [1, 0],
       some ((attachDerived egUploadConverted [17/20, 1/5] [1, 0]).sortValuesDesc
         "Lead_Score"),
       none) :=
  process_success_eq egUploadConverted egModel egScaler egEncoders egEncoded
    [[0, 1], [1, 0]] [[0, 1], [1, 0]] [17/20, 1/5] [1, 0]
    egConvMissingNone (egDropConv_eq ▸ egEncode_eq) egMatrix_eq egScale_eq
    egProba_eq egPredict_eq

theorem extraMissingNone :
    (egEncodersA.map Prod.fst).filter
      (fun c => c ∉ egUploadExtra.columns) = [] := by
  decide

theorem extraDrop_eq : dropConverted egUploadExtra = egUploadExtra := by decide

theorem extraEncode_eq :
    encodeAll egEncodersA egUploadExtra = .ok egEncodedExtra := by
  simp [encodeAll, egEncodersA, egUploadExtra, egEncodedExtra,
    DataFrame.getCol, DataFrame.setCol, DataFrame.columns,
    LabelEncoder.transformColumn, mapE, lookupCode, Cell.toStr, List.find?,
    List.findIdx?]

theorem extraMatrix_eq : egEncodedExtra.matrixRows = .ok [[0, 3]] := by
  simp [DataFrame.matrixRows, DataFrame.nRows, egEncodedExtra, mapE, cellToQ]

theorem unknownMissingNone :
    (egEncoders.map Prod.fst).filter
      (fun c => c ∉ egUploadUnknown.columns) = [] := by
  decide

theorem unknownDrop_eq : dropConverted egUploadUnknown = egUploadUnknown := by
  decide

theorem unknownEncode_err :
    encodeAll egEncoders egUploadUnknown
      = .error (unknownCategoryMsg "Source" "Bing") := by
  simp [encodeAll, egEncoders, egUploadUnknown, DataFrame.getCol,
    LabelEncoder.transformColumn, mapE, lookupCode, Cell.toStr, List.find?,
    List.findIdx?, unknownCategoryMsg]

/-! ### The claims -/

/-- C1: the claim says every row, including one with score exactly 0.0, gets
one of the three tiers, with Low iff p ≤ 0.40.  `pd.cut(scores,
bins=[0, 0.4, 0.7, 1.0])` (line 349) uses a left-open lowest bin, so a score
of exactly 0 falls outside every bin and its Priority cell is NaN — no tier —
while every score in (0, 0.4] gets Low, (0.4, 0.7] Medium and (0.7, 1] High.
The app's own help text (lines 963-965, "0-40%: Low") and its own summary
counter (line 1114, `Lead_Score <= 0.4` counted as Low) treat 0 as Low, so
the code contradicts itself at exactly 0: a code bug. -/
theorem C1_zero_score_has_no_tier :
    pdCutPriority 0 = Cell.na ∧
    pdCutPriority (1/100) = Cell.str "🔴 Low" ∧
    pdCutPriority (2/5) = Cell.str "🔴 Low" ∧
    pdCutPriority (1/2) = Cell.str "🟡 Medium" ∧
    pdCutPriority (7/10) = Cell.str "🟡 Medium" ∧
    pdCutPriority 1 = Cell.str "🟢 High" := by
  norm_num [pdCutPriority]

/-- C2: if every required column is present and some required column other
than `Converted` holds a value (after string coercion) outside its trained
vocabulary, the pipeline fails with the unknown-category error naming an
actually-offending column and value, returns no result rows at all, and
leaves the caller's frame untouched.  `hnd` records that `label_encoders` is
a Python dict: its keys are distinct. -/
theorem C2_unknown_category_aborts (df : DataFrame) (m : Model) (s : Scaler)
    (encs : List (String × LabelEncoder)) (hnd : (encs.map Prod.fst).Nodup)
    (hpresent : (encs.map Prod.fst).filter (fun c => c ∉ df.columns) = [])
    (hbad : ∃ ce ∈ encs, ce.1 ≠ "Converted" ∧ ∃ vals,
      df.getCol ce.1 = some vals ∧ ∃ v ∈ vals.map Cell.toStr, v ∉ ce.2.classes) :
    ∃ c enc vals v, (c, enc) ∈ encs ∧ df.getCol c = some vals ∧
      v ∈ vals.map Cell.toStr ∧ v ∉ enc.classes ∧
      process_and_predict df m s encs = (df, none, some (unknownCategoryMsg c v)) := by
  obtain ⟨⟨c0, enc0⟩, hm0, hne0, vals0, hg0, v0, hv0, hcl0⟩ := hbad
  have hg0' : (dropConverted df).getCol c0 = some vals0 := by
    rw [getCol_dropConverted_ne df c0 hne0]
    exact hg0
  have hnok : ∀ res, encodeAll encs (dropConverted df) ≠ .ok res :=
    encodeAll_ne_ok hnd hm0 hg0' hv0 hcl0
  cases henc : encodeAll encs (dropConverted df) with
  | ok res => exact absurd henc (hnok res)
  | error e =>
    obtain ⟨c, enc, vals, v, hmem, hgc, hv, hcl, he⟩ := encodeAll_error_mem hnd henc
    have hcC : c ≠ "Converted" := by
      intro hc
      exact not_mem_columns_dropConverted df (hc ▸ mem_columns_of_getCol hgc)
    refine ⟨c, enc, vals, v, hmem, ?_, hv, hcl, ?_⟩
    · rw [← getCol_dropConverted_ne df c hcC]
      exact hgc
    · have hrun : process_and_predict df m s encs = (df, none, some e) := by
        simp only [process_and_predict, hpresent, if_true, henc]
      rw [hrun, he]

/-- Witness for C2: uploading `Source = "Bing"` against the §8 vocabulary. -/
theorem C2_witness :
    ∃ c enc vals v, (c, enc) ∈ egEncoders ∧ egUploadUnknown.getCol c = some vals ∧
      v ∈ vals.map Cell.toStr ∧ v ∉ enc.classes ∧
      process_and_predict egUploadUnknown egModel egScaler egEncoders
        = (egUploadUnknown, none, some (unknownCategoryMsg c v)) :=
  C2_unknown_category_aborts egUploadUnknown egModel egScaler egEncoders
    (by decide) (by decide)
    ⟨("Source", ⟨["Google", "Direct"]⟩), by decide, by decide,
      [Cell.str "Bing"], by decide, "Bing", by decide, by decide⟩

/-- C3, counterexample to the extra-column half: the upload has the only
required column `A` with a valid value plus an extra column `C`, yet the
pipeline does not succeed — the extra column is fed to the scaler and the run
dies with a shape error, so `C` does not pass through to any output. -/
theorem C3_counterexample :
    process_and_predict egUploadExtra egModel egScaler1 egEncodersA
      = (egUploadExtra, none, some (shapeErrorMsg 2 1)) :=
  process_shape_error_eq egUploadExtra egModel egScaler1 egEncodersA
    egEncodedExtra [[0, 3]] extraMissingNone (extraDrop_eq ▸ extraEncode_eq)
    extraMatrix_eq (by decide)

/-- C3 as amended: (1) an upload missing required columns fails before
encoding with an error listing exactly the missing names (in encoder order);
(2) extra columns are NOT dropped: the whole processing frame (everything but
`Converted`) is handed to the scaler, so whenever its width differs from the
scaler's fitted width — as with any extra column beyond the fitted feature
set — the run fails with a shape error and nothing passes through. -/
theorem C3_schema_check (df : DataFrame) (m : Model) (s : Scaler)
    (encs : List (String × LabelEncoder)) :
    ((encs.map Prod.fst).filter (fun c => c ∉ df.columns) ≠ [] →
      process_and_predict df m s encs = (df, none,
        some ("Missing required columns: "
          ++ pyListRepr ((encs.map Prod.fst).filter (fun c => c ∉ df.columns))))) ∧
    (∀ dfe rows, (encs.map Prod.fst).filter (fun c => c ∉ df.columns) = [] →
      encodeAll encs (dropConverted df) = .ok dfe →
      dfe.matrixRows = .ok rows → dfe.cols.length ≠ s.nFeatures →
      process_and_predict df m s encs = (df, none,
        some (shapeErrorMsg (dropConverted df).cols.length s.nFeatures))) := by
  constructor
  · intro hmiss
    simp only [process_and_predict]
    rw [if_neg hmiss]
  · intro dfe rows hmiss henc hmr hnf
    have hlen := (encodeAll_ok_columns henc).2
    simp only [process_and_predict, hmiss, if_true, henc, hmr]
    unfold Scaler.transform
    rw [if_neg hnf]
    simp only [hlen]

/-- Witness for C3 as amended: both halves at concrete inputs. -/
theorem C3_witness :
    process_and_predict egUploadMissing egModel egScaler egEncoders
      = (egUploadMissing, none,
          some ("Missing required columns: " ++ pyListRepr ["Contacted"])) ∧
    process_and_predict egUploadExtra egModel egScaler1 egEncodersA
      = (egUploadExtra, none, some (shapeErrorMsg 2 1)) := by
  constructor
  · have hf : (egEncoders.map Prod.fst).filter
        (fun c => c ∉ egUploadMissing.columns) = ["Contacted"] := by decide
    have h := (C3_schema_check egUploadMissing egModel egScaler egEncoders).1
      (by decide)
    rw [hf] at h
    exact h
  · have h := (C3_schema_check egUploadExtra egModel egScaler1 egEncodersA).2
      egEncodedExtra [[0, 3]] extraMissingNone (extraDrop_eq ▸ extraEncode_eq)
      extraMatrix_eq (by decide)
    have hl : (dropConverted egUploadExtra).cols.length = 2 := by decide
    rw [hl] at h
    exact h

/-- C5, counterexample: a successful run over an upload that carries a
`Converted` column returns a result table that STILL CONTAINS the `Converted`
column — the column is dropped only from the processing copy (line 331), not
from the caller's frame the derived columns are attached to. -/
theorem C5_counterexample :
    (process_and_predict egUploadConverted egModel egScaler egEncoders).2.2
        = none ∧
      "Converted" ∈ (((process_and_predict egUploadConverted egModel egScaler
        egEncoders).2.1).getD ⟨[]⟩).columns := by
  rw [egConvRun_eq]
  refine ⟨rfl, ?_⟩
  show "Converted" ∈ ((attachDerived egUploadConverted [17/20, 1/5]
    [1, 0]).sortValuesDesc "Lead_Score").columns
  rw [columns_sortValuesDesc]
  exact mem_columns_attachDerived egUploadConverted [17/20, 1/5] [1, 0]
    "Converted" (by decide)

/-- C5 as amended: the `Converted` column is dropped before encoding, so its
values can never change whether the run succeeds nor which error it reports
(first conjunct: the error component and success/failure outcome are the same
for any two value lists); but the column is NOT suppressed from the output —
on a successful run it appears in the result table (second conjunct). -/
theorem C5_converted_suppression :
    (∀ (df : DataFrame) (m : Model) (s : Scaler)
        (encs : List (String × LabelEncoder)) (vals vals' : List Cell),
      (process_and_predict (df.setCol "Converted" vals) m s encs).2.2
          = (process_and_predict (df.setCol "Converted" vals') m s encs).2.2 ∧
        ((process_and_predict (df.setCol "Converted" vals) m s encs).2.1 = none ↔
          (process_and_predict (df.setCol "Converted" vals') m s encs).2.1 = none)) ∧
    (∀ (df : DataFrame) (m : Model) (s : Scaler)
        (encs : List (String × LabelEncoder)) (dfA out : DataFrame),
      "Converted" ∈ df.columns →
      process_and_predict df m s encs = (dfA, some out, none) →
      "Converted" ∈ out.columns) := by
  constructor
  · intro df m s encs vals vals'
    exact process_snd_congr _ _ m s encs (columns_setCol_Converted df vals vals')
      (by rw [dropConverted_setCol, dropConverted_setCol])
  · intro df m s encs dfA out hmem h
    obtain ⟨feats, scores, preds, _, _, _, hout⟩ :=
      process_success_inv df m s encs dfA out h
    rw [hout, columns_sortValuesDesc]
    exact mem_columns_attachDerived df scores preds "Converted" hmem

/-- Witness for C5 as amended: both conjuncts at concrete inputs. -/
theorem C5_witness :
    ((process_and_predict (egUpload.setCol "Converted" [Cell.str "zzz"]) egModel
        egScaler egEncoders).2.2
      = (process_and_predict (egUpload.setCol "Converted" [Cell.str "1"]) egModel
        egScaler egEncoders).2.2) ∧
    "Converted" ∈ ((attachDerived egUploadConverted [17/20, 1/5]
        [1, 0]).sortValuesDesc "Lead_Score").columns := by
  constructor
  · exact (C5_converted_suppression.1 egUpload egModel egScaler egEncoders
      [Cell.str "zzz"] [Cell.str "1"]).1
  · exact C5_converted_suppression.2 egUploadConverted egModel egScaler
      egEncoders (attachDerived egUploadConverted [17/20, 1/5] [1, 0])
      ((attachDerived egUploadConverted [17/20, 1/5] [1, 0]).sortValuesDesc
        "Lead_Score")
      (by decide) egConvRun_eq

/-- C6: on every successful run, the `Lead_Score` column attached to the
caller's frame holds exactly the model's per-row positive-class
probabilities, `Lead_Score_%` holds score*100 rounded to two decimals, and
`Prediction` is "✓ Likely" exactly on rows whose model label is 1 — the
model's own binary decision, independent of the Priority tiers. -/
theorem C6_derived_fields (df : DataFrame) (m : Model) (s : Scaler)
    (encs : List (String × LabelEncoder)) (dfA out : DataFrame)
    (h : process_and_predict df m s encs = (dfA, some out, none)) :
    ∃ feats scores preds,
      mapE m.probaRow feats = .ok scores ∧
      mapE m.predictRow feats = .ok preds ∧
      dfA.getCol "Lead_Score" = some (scores.map Cell.num) ∧
      dfA.getCol "Lead_Score_%"
        = some (scores.map (fun q => Cell.num (npRound2dp (q * 100)))) ∧
      dfA.getCol "Prediction" = some (preds.map (fun p =>
        Cell.str (if p = 1 then "✓ Likely" else "✗ Unlikely"))) := by
  obtain ⟨feats, scores, preds, hpr, hpd, hA, _⟩ :=
    process_success_inv df m s encs dfA out h
  subst hA
  exact ⟨feats, scores, preds, hpr, hpd,
    getCol_attachDerived_score df scores preds,
    getCol_attachDerived_pct df scores preds,
    getCol_attachDerived_pred df scores preds⟩

/-- Witness for C6 at the §8 run. -/
theorem C6_witness :
    ∃ feats scores preds,
      mapE egModel.probaRow feats = .ok scores ∧
      mapE egModel.predictRow feats = .ok preds ∧
      (attachDerived egUpload [17/20, 1/5] [1, 0]).getCol "Lead_Score"
        = some (scores.map Cell.num) ∧
      (attachDerived egUpload [17/20, 1/5] [1, 0]).getCol "Lead_Score_%"
        = some (scores.map (fun q => Cell.num (npRound2dp (q * 100)))) ∧
      (attachDerived egUpload [17/20, 1/5] [1, 0]).getCol "Prediction"
        = some (preds.map (fun p =>
            Cell.str (if p = 1 then "✓ Likely" else "✗ Unlikely"))) :=
  C6_derived_fields egUpload egModel egScaler egEncoders
    (attachDerived egUpload [17/20, 1/5] [1, 0])
    ((attachDerived egUpload [17/20, 1/5] [1, 0]).sortValuesDesc "Lead_Score")
    egRun_eq

/-- C7, counterexample: the pipeline is NOT free of outside mutation — a
successful run changes the caller's input frame (the four derived columns
are assigned to the original `df`, lines 347-354, not to the copy). -/
theorem C7_counterexample :
    (process_and_predict egUpload egModel egScaler egEncoders).1
      ≠ egUpload := by
  have hA : (process_and_predict egUpload egModel egScaler egEncoders).1
      = attachDerived egUpload [17/20, 1/5] [1, 0] := by
    rw [egRun_eq]
  rw [hA]
  intro hc
  have h1 := getCol_attachDerived_score egUpload [17/20, 1/5] [1, 0]
  rw [hc] at h1
  have h2 : egUpload.getCol "Lead_Score" = none := by decide
  rw [h2] at h1
  cases h1

/-- C7 as amended: the pipeline's outputs are a pure function of (table,
encoders, scaler, model) and the artifacts are never written to, but the
caller's input table is NOT left unchanged on success: the original raw
columns survive untouched while the four derived columns are attached in
place, so a frame that lacked `Lead_Score` is a different frame afterwards.
(Failure leaves the input unchanged — the separate failure-atomicity
result.) -/
theorem C7_success_mutates_input (df : DataFrame) (m : Model) (s : Scaler)
    (encs : List (String × LabelEncoder)) (dfA out : DataFrame)
    (h : process_and_predict df m s encs = (dfA, some out, none)) :
    (∀ c, c ≠ "Lead_Score" → c ≠ "Lead_Score_%" → c ≠ "Priority" →
      c ≠ "Prediction" → dfA.getCol c = df.getCol c) ∧
    ("Lead_Score" ∉ df.columns → dfA ≠ df) := by
  obtain ⟨feats, scores, preds, hpr, hpd, hA, _⟩ :=
    process_success_inv df m s encs dfA out h
  constructor
  · intro c h1 h2 h3 h4
    rw [hA]
    exact getCol_attachDerived_other df scores preds c h1 h2 h3 h4
  · intro hnm hceq
    have h1 := getCol_attachDerived_score df scores preds
    rw [← hA, hceq] at h1
    rw [(getCol_eq_none_iff df "Lead_Score").2 hnm] at h1
    cases h1

/-- Witness for C7 as amended at the §8 run. -/
theorem C7_witness :
    (attachDerived egUpload [17/20, 1/5] [1, 0]).getCol "Source"
        = egUpload.getCol "Source" ∧
      attachDerived egUpload [17/20, 1/5] [1, 0] ≠ egUpload := by
  have h := C7_success_mutates_input egUpload egModel egScaler egEncoders
    (attachDerived egUpload [17/20, 1/5] [1, 0])
    ((attachDerived egUpload [17/20, 1/5] [1, 0]).sortValuesDesc "Lead_Score")
    egRun_eq
  exact ⟨h.1 "Source" (by decide) (by decide) (by decide) (by decide),
    h.2 (by decide)⟩

/-- C8: the pipeline is a deterministic function of its four arguments —
identical copies of the upload and identical artifacts give identical triples
(same mutated frame, same result rows in the same order, same error). -/
theorem C8_two_run_determinism (df₁ df₂ : DataFrame) (m₁ m₂ : Model)
    (s₁ s₂ : Scaler) (e₁ e₂ : List (String × LabelEncoder)) (hdf : df₁ = df₂)
    (hm : m₁ = m₂) (hs : s₁ = s₂) (he : e₁ = e₂) :
    process_and_predict df₁ m₁ s₁ e₁ = process_and_predict df₂ m₂ s₂ e₂ := by
  rw [hdf, hm, hs, he]

/-- Witness for C8 at the §8 example. -/
theorem C8_witness :
    process_and_predict egUpload egModel egScaler egEncoders
      = process_and_predict egUpload egModel egScaler egEncoders :=
  C8_two_run_determinism egUpload egUpload egModel egModel egScaler egScaler
    egEncoders egEncoders rfl rfl rfl rfl

/-- C9: whenever `process_and_predict` returns an error, the caller's input
frame comes back exactly as it went in and no result table is produced — the
derived columns are attached only after encoding, scaling and inference have
all succeeded. -/
theorem C9_failure_is_atomic (df : DataFrame) (m : Model) (s : Scaler)
    (encs : List (String × LabelEncoder)) (dfA : DataFrame)
    (r : Option DataFrame) (msg : String)
    (h : process_and_predict df m s encs = (dfA, r, some msg)) :
    dfA = df ∧ r = none := by
  simp only [process_and_predict] at h
  split at h
  all_goals try split at h
  all_goals try split at h
  all_goals try split at h
  all_goals try split at h
  all_goals try split at h
  all_goals
    injection h with ha h2
  all_goals
    injection h2 with hb hc
  all_goals first
    | exact ⟨ha.symm, hb.symm⟩
    | exact Option.noConfusion hc

/-- Witness for C9: an unknown-category failure leaves the frame unchanged. -/
theorem C9_witness :
    (process_and_predict egUploadUnknown egModel egScaler egEncoders).1
        = egUploadUnknown ∧
      (process_and_predict egUploadUnknown egModel egScaler egEncoders).2.1
        = none := by
  have h : process_and_predict egUploadUnknown egModel egScaler egEncoders
      = (egUploadUnknown, none, some (unknownCategoryMsg "Source" "Bing")) :=
    process_encode_error_eq egUploadUnknown egModel egScaler egEncoders _
      unknownMissingNone (unknownDrop_eq ▸ unknownEncode_err)
  rw [h]
  exact C9_failure_is_atomic egUploadUnknown egModel egScaler egEncoders
    egUploadUnknown none (unknownCategoryMsg "Source" "Bing") h

/-- C10: the pipeline always returns exactly one of a result table with no
error, or no result with a non-empty error message; after schema validation
every stage failure is converted into such an error return (never an
uncaught exception), given that the opaque model's own failure messages are
non-empty (`Model.WellFormedErrors`). -/
theorem C10_total_error_interface (df : DataFrame) (m : Model) (s : Scaler)
    (encs : List (String × LabelEncoder)) (hm : m.WellFormedErrors) :
    (∃ dfA out, process_and_predict df m s encs = (dfA, some out, none)) ∨
    (∃ msg, process_and_predict df m s encs = (df, none, some msg) ∧ msg ≠ "") := by
  simp only [process_and_predict]
  split
  · split
    · rename_i e henc
      refine Or.inr ⟨e, rfl, ?_⟩
      obtain ⟨c, v, he⟩ := encodeAll_error_form henc
      rw [he]
      exact unknownCategoryMsg_ne_empty c v
    · rename_i dfe henc
      split
      · rename_i e hmr
        exact Or.inr ⟨e, rfl, matrixRows_error_ne_empty hmr⟩
      · rename_i rows hmr
        split
        · rename_i e hsc
          refine Or.inr ⟨e, rfl, ?_⟩
          unfold Scaler.transform at hsc
          split at hsc
          · cases hsc
          · cases hsc
            exact shapeErrorMsg_ne_empty _ _
        · rename_i feats hsc
          split
          · rename_i e hpr
            refine Or.inr ⟨e, rfl, ?_⟩
            obtain ⟨row, _, hrow⟩ := mapE_error_mem hpr
            exact hm.1 row e hrow
          · rename_i scores hpr
            split
            · rename_i e hpd
              refine Or.inr ⟨e, rfl, ?_⟩
              obtain ⟨row, _, hrow⟩ := mapE_error_mem hpd
              exact hm.2 row e hrow
            · exact Or.inl ⟨_, _, rfl⟩
  · refine Or.inr ⟨_, rfl, ?_⟩
    apply append_ne_empty
    decide

/-- Witness for C10 at the §8 example (its model never raises). -/
theorem C10_witness :
    (∃ dfA out, process_and_predict egUpload egModel egScaler egEncoders
        = (dfA, some out, none)) ∨
    (∃ msg, process_and_predict egUpload egModel egScaler egEncoders
        = (egUpload, none, some msg) ∧ msg ≠ "") := by
  have hwf : egModel.WellFormedErrors := by
    constructor
    · intro row msg h
      simp only [egModel] at h
      split at h <;> cases h
    · intro row msg h
      simp only [egModel] at h
      split at h <;> cases h
  exact C10_total_error_interface egUpload egModel egScaler egEncoders hwf

end StudentLead
